import Mathlib

/-!
Verification of the resilient acquisition pipeline of the avito parser:
a shallow embedding of the fetch retry state machine
(`infrastructure/http_client.py`), the record extractor
(`infrastructure/ad_extractor.py`), the ordered filter chain
(`core/filters.py`) and the per-URL pagination loop
(`application/parser_cls.py`), together with theorems settling the
specification claims about them.
-/

namespace Avito

/-- A JSON-like value, used to model the dynamically typed data the Python
code manipulates: parsed script blobs and raw record metadata blocks. -/
inductive Json where
  | null
  | bool (b : Bool)
  | num (n : Int)
  | str (s : String)
  | arr (items : List Json)
  | obj (fields : List (String × Json))

/-- Key lookup in a JSON object field list (first match, like a dict). -/
def jlookup : List (String × Json) → String → Option Json
  | [], _ => none
  | (k, v) :: rest, key => if k == key then some v else jlookup rest key

/-- Python falsiness of a JSON value: None, False, 0, empty string, empty
list and empty dict are falsy. -/
def Json.falsy : Json → Bool
  | .null => true
  | .bool b => !b
  | .num n => n == 0
  | .str s => s.isEmpty
  | .arr l => l.isEmpty
  | .obj fs => fs.isEmpty

/-- Whether a JSON value is exactly the given string (models Python equality
between an arbitrary value and a str literal). -/
def Json.isStr : Json → String → Bool
  | .str t, s => t == s
  | _, _ => false

/-- Substring test, modelling Python `needle in hay` on strings (an empty
needle is contained in every string). -/
def strContains (hay needle : String) : Bool :=
  needle.isEmpty || (hay.splitOn needle).length != 1

/-- Python `key in value`: key membership for a dict, element membership for
a list, substring for a string; a TypeError (modelled as an error) for other
values. -/
def Json.pyContains : Json → String → Except Unit Bool
  | .obj fs, k => .ok (jlookup fs k).isSome
  | .arr xs, k => .ok (xs.any (fun x => Json.isStr x k))
  | .str s, k => .ok (strContains s k)
  | _, _ => .error ()

/-- Python `value[key]`: field lookup on a dict (KeyError when absent);
a TypeError for every non-dict value. Both errors are modelled as `.error`. -/
def Json.pyIndex : Json → String → Except Unit Json
  | .obj fs, k =>
    match jlookup fs k with
    | some v => .ok v
    | none => .error ()
  | _, _ => .error ()

/-- Modelled from the spec: the price detail of a record ("price (amount +
currency-like detail)"), the `priceDetailed` sub-model of the missing
`core/models.py`, of which the filters use only the numeric `value`. -/
structure PriceDetailed where
  value : Int

/-- Modelled from the spec: the geo block of a record ("geo (formatted
address string, optional)") from the missing `core/models.py`. -/
structure Geo where
  formattedAddress : Option String

/-- Modelled from the spec: a record ("Item") from the missing
`core/models.py`, with the fields the embedded code reads: identity, title,
description, price detail, geo, derived seller identity, reservation flag,
derived promotion flag (false until derived), publish timestamp in epoch
milliseconds, and the raw nested metadata block `iva` (a dict, used only to
derive the promotion flag, its values kept as loose JSON). -/
structure Item where
  id : Option Int
  title : Option String
  description : Option String
  priceDetailed : Option PriceDetailed
  geo : Option Geo
  sellerId : Option String
  isReserved : Bool
  isPromotion : Bool
  sortTimeStamp : Option Int
  iva : Option (List (String × Json))

/-- Modelled from the spec: the filter-relevant configuration surface
("price bounds, required/forbidden keyword lists, geo substring, seller
blacklist, max record age (seconds), reservation-ignore flag,
promotion-ignore flag") from the missing `core/dto.py`. Empty strings,
empty lists and a zero max age model the Python-falsy "absent" settings. -/
structure AvitoConfig where
  min_price : Int
  max_price : Int
  keys_word_black_list : List String
  keys_word_white_list : List String
  geo : String
  seller_black_list : List String
  max_age : Nat
  ignore_reserv : Bool
  ignore_promotion : Bool

/-- A script element of a listing page, as `AdExtractor._find_json_on_page`
sees it: its `type` attribute (absent when the tag has none) and the outcome
of `html.unescape` + `json.loads` on its text (`.error` models a parse
exception, which the surrounding `except` turns into an empty result). -/
structure Script where
  stype : Option String
  parsed : Except Unit Json

/-- Embedding of `AdExtractor._find_json_on_page` (ad_extractor.py:90-121):
scan the scripts in order; on a script of type `mime/invalid`, parse it and
return its `state` (else `data`) entry; a script whose blob has neither key
is skipped; any exception (parse failure, TypeError of `in` or of indexing,
KeyError) is caught by the enclosing `except` and yields `{}`; falling off
the loop also yields `{}`. -/
def find_json_on_page : List Script → Json
  | [] => Json.obj []
  | s :: rest =>
    if s.stype == some "mime/invalid" then
      match s.parsed with
      | .error _ => Json.obj []
      | .ok p =>
        match p.pyContains "state" with
        | .error _ => Json.obj []
        | .ok true =>
          match p.pyIndex "state" with
          | .ok v => v
          | .error _ => Json.obj []
        | .ok false =>
          match p.pyContains "data" with
          | .error _ => Json.obj []
          | .ok true =>
            match p.pyIndex "data" with
            | .ok v => v
            | .error _ => Json.obj []
          | .ok false => find_json_on_page rest
    else find_json_on_page rest

/-- Decodes an optional integer field value (null decodes to absent). -/
def decodeOptInt : Option Json → Except Unit (Option Int)
  | none => .ok none
  | some .null => .ok none
  | some (.num n) => .ok (some n)
  | some _ => .error ()

/-- Decodes an optional string field value (null decodes to absent). -/
def decodeOptStr : Option Json → Except Unit (Option String)
  | none => .ok none
  | some .null => .ok none
  | some (.str s) => .ok (some s)
  | some _ => .error ()

/-- Decodes the optional price detail block. -/
def decodePrice : Option Json → Except Unit (Option PriceDetailed)
  | none => .ok none
  | some .null => .ok none
  | some (.obj fs) =>
    match jlookup fs "value" with
    | some (.num n) => .ok (some ⟨n⟩)
    | _ => .error ()
  | some _ => .error ()

/-- Decodes the optional geo block. -/
def decodeGeo : Option Json → Except Unit (Option Geo)
  | none => .ok none
  | some .null => .ok none
  | some (.obj fs) => do
    let addr ← decodeOptStr (jlookup fs "formattedAddress")
    .ok (some ⟨addr⟩)
  | some _ => .error ()

/-- Decodes an optional boolean flag, absent meaning false. -/
def decodeFlag : Option Json → Except Unit Bool
  | none => .ok false
  | some .null => .ok false
  | some (.bool b) => .ok b
  | some _ => .error ()

/-- Decodes the optional raw metadata dict, kept as loose JSON fields. -/
def decodeIva : Option Json → Except Unit (Option (List (String × Json)))
  | none => .ok none
  | some .null => .ok none
  | some (.obj fs) => .ok (some fs)
  | some _ => .error ()

/-- Modelled from the spec: validation of one record object against the
record schema of the missing `core/models.py` ("record objects with fields:
id, title, description, price detail, geo, reservation flag, ..., publish
timestamp, nested metadata"); a non-object or a wrongly typed field is a
validation error. The derived fields (seller identity, promotion flag)
start absent and false. -/
def decodeItem : Json → Except Unit Item
  | .obj fs => do
    let id ← decodeOptInt (jlookup fs "id")
    let title ← decodeOptStr (jlookup fs "title")
    let description ← decodeOptStr (jlookup fs "description")
    let price ← decodePrice (jlookup fs "priceDetailed")
    let geo ← decodeGeo (jlookup fs "geo")
    let reserved ← decodeFlag (jlookup fs "isReserved")
    let ts ← decodeOptInt (jlookup fs "sortTimeStamp")
    let iva ← decodeIva (jlookup fs "iva")
    .ok ⟨id, title, description, price, geo, none, reserved, false, ts, iva⟩
  | _ => .error ()

/-- Modelled from the spec: the `ItemsResponse` schema of the missing
`core/models.py` — the catalog object must carry an `items` array whose
elements all validate as records; any mismatch is a `ValidationError`. -/
def decodeItemsResponse (fs : List (String × Json)) : Except Unit (List Item) :=
  match jlookup fs "items" with
  | some (.arr xs) => xs.mapM decodeItem
  | _ => .error ()

/-- Embedding of `AdExtractor._clean_null_ads` (ad_extractor.py:64-67):
drop every record whose `id` is Python-falsy (absent or zero). -/
def _clean_null_ads (ads : List Item) : List Item :=
  ads.filter fun ad =>
    match ad.id with
    | some n => decide (n ≠ 0)
    | none => false

/-- Embedding of `AdExtractor._add_seller_to_ads` (ad_extractor.py:80-88),
with the regex search of `_extract_seller_slug` over the string rendering of
the record abstracted as the `extractSlug` parameter: attach the slug as
`sellerId` when one is found. -/
def _add_seller_to_ads (extractSlug : Item → Option String)
    (ads : List Item) : List Item :=
  ads.map fun ad =>
    match extractSlug ad with
    | some s => { ad with sellerId := some s }
    | none => ad

/-- Embedding of the catalog computation of `extract_ads_from_html`
(ad_extractor.py:39): `data_from_page.get("data", {}).get("catalog") or {}`.
`.get` on a non-dict raises an AttributeError, which the code does not
catch, so it is surfaced as `.error`. -/
def catalogOf (d : Json) : Except Unit Json :=
  match d with
  | .obj fs =>
    let step1 := (jlookup fs "data").getD (Json.obj [])
    match step1 with
    | .obj fs1 =>
      let step2 := (jlookup fs1 "catalog").getD Json.null
      .ok (if step2.falsy then Json.obj [] else step2)
    | _ => .error ()
  | _ => .error ()

/-- Embedding of the body of `AdExtractor.extract_ads_from_html`
(ad_extractor.py:24-47) after the JSON blob has been located: an empty
(falsy) blob yields `[]`; a `ValidationError` of the schema is caught and
yields `[]`; the uncaught exceptions (AttributeError of `.get` on a
non-dict, TypeError of `**` on a non-dict catalog) are `.error`. -/
def extractFromData (extractSlug : Item → Option String) (d : Json) :
    Except Unit (List Item) :=
  if d.falsy then .ok []
  else
    match catalogOf d with
    | .error e => .error e
    | .ok (.obj cfs) =>
      match decodeItemsResponse cfs with
      | .error _ => .ok []
      | .ok items => .ok (_add_seller_to_ads extractSlug (_clean_null_ads items))
    | .ok _ => .error ()

/-- Embedding of `AdExtractor.extract_ads_from_html` (ad_extractor.py:24-47):
locate the JSON blob among the page's scripts, then validate, clean and
enrich the records. -/
def extract_ads_from_html (extractSlug : Item → Option String)
    (scripts : List Script) : Except Unit (List Item) :=
  extractFromData extractSlug (find_json_on_page scripts)

/-- Embedding of `FilterContext` (filters.py:17-23): the immutable filter
configuration plus the dedup-check callback, which reaches an external
store and may therefore raise (modelled as `Except`). The ambient clock
read by the recency filter (`datetime.utcnow`, in epoch seconds) is carried
here explicitly. -/
structure FilterContext where
  config : AvitoConfig
  is_viewed : Item → Except Unit Bool
  now : Int

/-- A batch filter, as the chain applies it. -/
abbrev AdFilter := List Item → FilterContext → List Item

/-- Evaluates a possibly raising predicate over a list in order, keeping
the elements on which it holds; the first raise aborts the whole traversal
(the behaviour of a Python list comprehension). -/
def exFilter (p : Item → Except Unit Bool) : List Item → Except Unit (List Item)
  | [] => .ok []
  | a :: as => do
    let keep ← p a
    let rest ← exFilter p as
    .ok (if keep then a :: rest else rest)

/-- The shared `try`/`except` shape of every filter in filters.py: build the
filtered list, and on any exception log and return the input batch
unchanged. -/
def tryFilter (p : Item → Except Unit Bool) (ads : List Item) : List Item :=
  match exFilter p ads with
  | .ok r => r
  | .error _ => ads

/-- Embedding of `_safe_text` (filters.py:26-29). -/
def _safe_text (ad : Item) : String :=
  ((ad.title.getD "") ++ " " ++ (ad.description.getD "")).toLower

/-- Embedding of `_is_phrase_in_ad` (filters.py:32-34). -/
def _is_phrase_in_ad (ad : Item) (phrases : List String) : Bool :=
  phrases.any fun phrase => strContains (_safe_text ad) phrase.toLower

/-- Embedding of `_is_recent` (filters.py:37-42), with the ambient clock
passed explicitly (epoch seconds): a record with a falsy timestamp is never
recent; otherwise recent means `now - published ≤ max_age_seconds`. -/
def _is_recent (now : Int) (timestamp_ms : Option Int) (max_age_seconds : Nat) : Bool :=
  match timestamp_ms with
  | none => false
  | some ts => if ts == 0 then false else decide (now - ts / 1000 ≤ max_age_seconds)

/-- Embedding of `filter_viewed` (filters.py:62-67). -/
def filter_viewed (ads : List Item) (ctx : FilterContext) : List Item :=
  tryFilter (fun ad => do
    let seen ← ctx.is_viewed ad
    .ok (!seen)) ads

/-- The keep-predicate of `filter_by_price_range`: a truthy price detail
whose value lies between the configured bounds. -/
def pricePred (ctx : FilterContext) (ad : Item) : Bool :=
  match ad.priceDetailed with
  | none => false
  | some p => decide (ctx.config.min_price ≤ p.value) && decide (p.value ≤ ctx.config.max_price)

/-- Embedding of `filter_by_price_range` (filters.py:70-79). -/
def filter_by_price_range (ads : List Item) (ctx : FilterContext) : List Item :=
  tryFilter (fun ad => .ok (pricePred ctx ad)) ads

/-- Embedding of `filter_by_black_keywords` (filters.py:82-92). -/
def filter_by_black_keywords (ads : List Item) (ctx : FilterContext) : List Item :=
  if ctx.config.keys_word_black_list.isEmpty then ads
  else tryFilter (fun ad => .ok (!_is_phrase_in_ad ad ctx.config.keys_word_black_list)) ads

/-- Embedding of `filter_by_white_keywords` (filters.py:95-105). -/
def filter_by_white_keywords (ads : List Item) (ctx : FilterContext) : List Item :=
  if ctx.config.keys_word_white_list.isEmpty then ads
  else tryFilter (fun ad => .ok (_is_phrase_in_ad ad ctx.config.keys_word_white_list)) ads

/-- Embedding of `filter_by_address` (filters.py:108-120). -/
def filter_by_address (ads : List Item) (ctx : FilterContext) : List Item :=
  if ctx.config.geo.isEmpty then ads
  else tryFilter (fun ad => .ok (
    match ad.geo with
    | none => false
    | some g =>
      match g.formattedAddress with
      | none => false
      | some addr => !addr.isEmpty && strContains addr ctx.config.geo)) ads

/-- Embedding of `filter_by_seller` (filters.py:123-133). -/
def filter_by_seller (ads : List Item) (ctx : FilterContext) : List Item :=
  if ctx.config.seller_black_list.isEmpty then ads
  else tryFilter (fun ad => .ok (
    match ad.sellerId with
    | none => true
    | some s => s.isEmpty || !ctx.config.seller_black_list.contains s)) ads

/-- Embedding of `filter_by_recent_time` (filters.py:136-146). -/
def filter_by_recent_time (ads : List Item) (ctx : FilterContext) : List Item :=
  if ctx.config.max_age == 0 then ads
  else tryFilter (fun ad => .ok (_is_recent ctx.now ad.sortTimeStamp ctx.config.max_age)) ads

/-- Embedding of `filter_by_reserve` (filters.py:149-156). -/
def filter_by_reserve (ads : List Item) (ctx : FilterContext) : List Item :=
  if !ctx.config.ignore_reserv then ads
  else tryFilter (fun ad => .ok (!ad.isReserved)) ads

/-- Scan of one vas entry list for a `title` equal to "Продвинуто",
short-circuiting like the Python `any` generator; an entry that is not a
dict makes `v.get` raise (AttributeError, modelled as `.error`). -/
def vasHasPromo : List Json → Except Unit Bool
  | [] => .ok false
  | v :: vs =>
    match v with
    | .obj vfs =>
      if ((jlookup vfs "title").map (fun t => t.isStr "Продвинуто")).getD false
      then .ok true
      else vasHasPromo vs
    | _ => .error ()

/-- Extraction of the vas entry list of one step,
`(step.payload or {}).get("vas", [])`: the step must be a dict carrying a
`payload` key (its `.payload` attribute); a falsy payload gives the empty
default; a truthy non-dict payload raises; a non-list `vas` value iterates
zero times when it is an empty string or dict and raises otherwise (its
string elements have no `.get`). -/
def vasOfStep : Json → Except Unit (List Json)
  | .obj sfs =>
    match jlookup sfs "payload" with
    | none => .error ()
    | some payload =>
      if payload.falsy then .ok []
      else
        match payload with
        | .obj pfs =>
          match jlookup pfs "vas" with
          | none => .ok []
          | some (.arr l) => .ok l
          | some (.str s) => if s.isEmpty then .ok [] else .error ()
          | some (.obj fs) => if fs.isEmpty then .ok [] else .error ()
          | some _ => .error ()
        | _ => .error ()
  | _ => .error ()

/-- Scan of the step list, short-circuiting on the first promoted entry. -/
def stepsHasPromo : List Json → Except Unit Bool
  | [] => .ok false
  | step :: rest => do
    let vs ← vasOfStep step
    let b ← vasHasPromo vs
    if b then .ok true else stepsHasPromo rest

/-- The per-record promotion computation of `_add_promotion_flag`
(filters.py:49-55): iterate `(ad.iva or {}).get("DateInfoStep", [])`; a
missing key, or an empty string or dict, iterates zero times; a non-empty
string or dict yields string elements, whose `.payload` access raises; any
other non-list value raises on iteration itself. -/
def promoFlagOfAd (ad : Item) : Except Unit Bool :=
  match jlookup (ad.iva.getD []) "DateInfoStep" with
  | none => .ok false
  | some (.arr steps) => stepsHasPromo steps
  | some (.str s) => if s.isEmpty then .ok false else .error ()
  | some (.obj fs) => if fs.isEmpty then .ok false else .error ()
  | some _ => .error ()

/-- The per-record update of `_add_promotion_flag`: set the flag when its
computation succeeds; on an exception log and leave the record as it was. -/
def applyPromoFlag (ad : Item) : Item :=
  match promoFlagOfAd ad with
  | .ok b => { ad with isPromotion := b }
  | .error _ => ad

/-- Embedding of `_add_promotion_flag` (filters.py:45-58). -/
def _add_promotion_flag (ads : List Item) : List Item :=
  ads.map applyPromoFlag

/-- Embedding of `filter_by_promotion` (filters.py:159-167): always derive
and attach the promotion flag, then exclude flagged records only when the
configuration asks for it. -/
def filter_by_promotion (ads : List Item) (ctx : FilterContext) : List Item :=
  let flagged := _add_promotion_flag ads
  if !ctx.config.ignore_promotion then flagged
  else tryFilter (fun ad => .ok (!ad.isPromotion)) flagged

/-- Embedding of `FILTERS_ORDER` (filters.py:170-180). -/
def FILTERS_ORDER : List AdFilter :=
  [filter_viewed,
   filter_by_price_range,
   filter_by_black_keywords,
   filter_by_white_keywords,
   filter_by_address,
   filter_by_seller,
   filter_by_recent_time,
   filter_by_reserve,
   filter_by_promotion]

/-- The loop body of `apply_filters` (filters.py:183-192): apply the
remaining filters in order, breaking as soon as the batch becomes empty. -/
def applyFiltersGo (ctx : FilterContext) : List AdFilter → List Item → List Item
  | [], ads => ads
  | f :: fs, ads =>
    let ads1 := f ads ctx
    if ads1.isEmpty then ads1 else applyFiltersGo ctx fs ads1

/-- Embedding of `apply_filters` (filters.py:183-192). -/
def apply_filters (ads : List Item) (ctx : FilterContext) : List Item :=
  applyFiltersGo ctx FILTERS_ORDER ads

/-- A vas entry whose title is exactly "Продвинуто" (spec's words). -/
def specVasEntryPromo (v : Json) : Bool :=
  match v with
  | .obj vfs => ((jlookup vfs "title").map (fun t => t.isStr "Продвинуто")).getD false
  | _ => false

/-- A metadata step whose payload carries a promoted vas entry (spec's
words). -/
def specStepPromo (step : Json) : Bool :=
  match step with
  | .obj sfs =>
    match jlookup sfs "payload" with
    | some (.obj pfs) =>
      match jlookup pfs "vas" with
      | some (.arr vs) => vs.any specVasEntryPromo
      | _ => false
    | _ => false
  | _ => false

/-- The property stated by the spec for the promotion flag: the record's
metadata contains a `DateInfoStep` step whose payload carries a vas entry
titled exactly "Продвинуто" (a total scan, written from the spec's words
for comparison with the code's short-circuiting computation). -/
def specHasPromo (ad : Item) : Bool :=
  match jlookup (ad.iva.getD []) "DateInfoStep" with
  | some (.arr steps) => steps.any specStepPromo
  | _ => false

/-- The observable state of an `AvitoHttpClient` (http_client.py:15-59)
together with instrumentation of its side effects: the success and failure
counters, the number of requests issued, the number of times the session
was discarded and recreated, and the number of calls to `_change_ip`,
`_refresh_cookies` and `save_cookies`. -/
structure FetchState where
  good_request_count : Nat
  bad_request_count : Nat
  attempts : Nat
  session_resets : Nat
  change_ip_calls : Nat
  refresh_cookies_calls : Nat
  save_cookies_calls : Nat

/-- A fresh client: all counters at zero. -/
def FetchState.init : FetchState := ⟨0, 0, 0, 0, 0, 0, 0⟩

/-- The retry loop of `AvitoHttpClient.fetch` (http_client.py:113-156),
driven by the environment: `status a` is the response status of attempt
`a`, `text a` its body, `stop a` the cancellation signal observed before
attempt `a`. The first argument is the remaining attempt budget.
Per attempt: a status ≥ 500 raises and retries; 429 increments the failure
counter, recreates the session, rotates the IP, re-mints cookies only when
the attempt number has reached 3, then raises and retries; 403/302 re-mint
cookies, then raise and retry; any other status saves the cookies,
increments the success counter and returns the body. A raise on the last
budgeted attempt returns `none`. -/
def fetchGo (status : Nat → Nat) (text : Nat → String) (stop : Nat → Bool) :
    Nat → Nat → FetchState → Option String × FetchState
  | 0, _, st => (none, st)
  | fuel + 1, attempt, st =>
    if stop attempt then (none, st)
    else
      let st1 := { st with attempts := st.attempts + 1 }
      let s := status attempt
      if 500 ≤ s then
        fetchGo status text stop fuel (attempt + 1) st1
      else if s == 429 then
        let st2 := { st1 with bad_request_count := st1.bad_request_count + 1,
                              session_resets := st1.session_resets + 1,
                              change_ip_calls := st1.change_ip_calls + 1 }
        let st3 := if 3 ≤ attempt
          then { st2 with refresh_cookies_calls := st2.refresh_cookies_calls + 1 }
          else st2
        fetchGo status text stop fuel (attempt + 1) st3
      else if s == 403 || s == 302 then
        let st2 := { st1 with refresh_cookies_calls := st1.refresh_cookies_calls + 1 }
        fetchGo status text stop fuel (attempt + 1) st2
      else
        (some (text attempt),
         { st1 with save_cookies_calls := st1.save_cookies_calls + 1,
                    good_request_count := st1.good_request_count + 1 })

/-- Embedding of `AvitoHttpClient.fetch` (http_client.py:106-156): run the
retry loop with the full budget, starting from attempt 1 (the URL, proxy
wiring and backoff sleeps carry no observable state here). -/
def fetch (status : Nat → Nat) (text : Nat → String) (stop : Nat → Bool)
    (retries : Nat) (st : FetchState) : Option String × FetchState :=
  fetchGo status text stop retries 1 st

/-- The statuses on which the code's fetch attempt returns the body: below
500 and none of 429, 403, 302. -/
def goodStatus (s : Nat) : Bool :=
  !decide (500 ≤ s) && !(s == 429) && !(s == 403) && !(s == 302)

/-- A 2xx status, written from the spec's words for comparison with the
code's return condition. -/
def is2xx (s : Nat) : Bool :=
  decide (200 ≤ s) && decide (s < 300)

/-- The outcome of one page iteration of the pagination loop, as the driver
observes it: the fetch came back absent, or it succeeded and extraction
yielded the given records. -/
inductive PageOutcome where
  | fail
  | ok (ads : List Item)

/-- The body of the per-URL pagination loop of `AvitoParse._process_url`
(parser_cls.py:215-243), driven by an oracle giving the outcome of the
page fetch at each loop iteration and by the cancellation signal; `next`
is `get_next_page_url`. Arguments: remaining iteration budget, current
iteration index, current URL, fetches issued so far. Per iteration: stop
when cancelled; on an absent fetch pause and continue with the URL
unchanged; on a fetch whose extraction is empty break; otherwise process
the batch, advance the URL and pause. Returns the number of page fetches
issued and the final URL. -/
def processUrlGo {U : Type} (next : U → U) (oracle : Nat → PageOutcome)
    (stop : Nat → Bool) : Nat → Nat → U → Nat → Nat × U
  | 0, _, url, fetches => (fetches, url)
  | fuel + 1, iter, url, fetches =>
    if stop iter then (fetches, url)
    else
      match oracle iter with
      | .fail => processUrlGo next oracle stop fuel (iter + 1) url (fetches + 1)
      | .ok [] => (fetches + 1, url)
      | .ok (_ :: _) => processUrlGo next oracle stop fuel (iter + 1) (next url) (fetches + 1)

/-- Embedding of `AvitoParse._process_url` (parser_cls.py:215-243) for one
URL: run the loop for `config.count` iterations starting at the given URL. -/
def processUrl {U : Type} (next : U → U) (oracle : Nat → PageOutcome)
    (stop : Nat → Bool) (count : Nat) (url : U) : Nat × U :=
  processUrlGo next oracle stop count 0 url 0

/-! ## Shared lemmas -/

/-- Bind on a successful Except computation. -/
lemma except_ok_bind {α β : Type} (a : α) (f : α → Except Unit β) :
    (Except.ok a >>= f) = f a := rfl

/-- Bind on a failed Except computation. -/
lemma except_error_bind {α β : Type} (e : Unit) (f : α → Except Unit β) :
    ((Except.error e : Except Unit α) >>= f) = Except.error e := rfl

/-- Splitting a successful Except bind into its two successful stages. -/
lemma except_bind_ok {α β : Type} {x : Except Unit α} {f : α → Except Unit β} {v : β}
    (h : (x >>= f) = .ok v) : ∃ a, x = .ok a ∧ f a = .ok v := by
  cases x with
  | error e => rw [except_error_bind] at h; cases h
  | ok a => exact ⟨a, rfl, by rwa [except_ok_bind] at h⟩

/-- Unfolding of one budgeted step of the fetch retry loop. -/
lemma fetchGo_succ (status : Nat → Nat) (text : Nat → String) (stop : Nat → Bool)
    (fuel attempt : Nat) (st : FetchState) :
    fetchGo status text stop (fuel + 1) attempt st =
      if stop attempt then (none, st)
      else
        let st1 := { st with attempts := st.attempts + 1 }
        let s := status attempt
        if 500 ≤ s then
          fetchGo status text stop fuel (attempt + 1) st1
        else if s == 429 then
          let st2 := { st1 with bad_request_count := st1.bad_request_count + 1,
                                session_resets := st1.session_resets + 1,
                                change_ip_calls := st1.change_ip_calls + 1 }
          let st3 := if 3 ≤ attempt
            then { st2 with refresh_cookies_calls := st2.refresh_cookies_calls + 1 }
            else st2
          fetchGo status text stop fuel (attempt + 1) st3
        else if s == 403 || s == 302 then
          let st2 := { st1 with refresh_cookies_calls := st1.refresh_cookies_calls + 1 }
          fetchGo status text stop fuel (attempt + 1) st2
        else
          (some (text attempt),
           { st1 with save_cookies_calls := st1.save_cookies_calls + 1,
                      good_request_count := st1.good_request_count + 1 }) := rfl

/-- The components of a status on which the code returns the body. -/
lemma goodStatus_spec {s : Nat} (h : goodStatus s = true) :
    ¬(500 ≤ s) ∧ (s == 429) = false ∧ (s == 403) = false ∧ (s == 302) = false := by
  simp only [goodStatus, Bool.and_eq_true, Bool.not_eq_eq_eq_not, Bool.not_true,
    decide_eq_false_iff_not] at h
  exact ⟨h.1.1.1, h.1.1.2, h.1.2, h.2⟩

/-- Under a server that always answers ≥ 500, the retry loop consumes its
whole budget, issues one request per budget unit, and ends absent with the
rest of the state untouched. -/
lemma fetchGo_allServerError (status : Nat → Nat) (text : Nat → String)
    (hs : ∀ a, 500 ≤ status a) (fuel : Nat) :
    ∀ (attempt : Nat) (st : FetchState),
      fetchGo status text (fun _ => false) fuel attempt st =
        (none, { st with attempts := st.attempts + fuel }) := by
  induction fuel with
  | zero => intro attempt st; simp [fetchGo]
  | succ fuel ih =>
    intro attempt st
    rw [fetchGo_succ]
    simp only [if_pos (hs attempt), if_neg (Bool.false_ne_true), ih]
    simp [Nat.add_assoc, Nat.add_comm 1 fuel]

/-! ## C2 -/

/-- C2: for every N ≥ 1, if every issued request results in a status ≥ 500
then `fetch(url, retries := N)` performs exactly N request attempts and
returns an absent result; the loop itself catches every raised transient
error, so no exception reaches the caller. -/
theorem fetch_serverError_exhausts_budget (N : Nat) (hN : 1 ≤ N)
    (status : Nat → Nat) (text : Nat → String) (st : FetchState)
    (hs : ∀ a, 500 ≤ status a) :
    (fetch status text (fun _ => false) N st).1 = none ∧
    (fetch status text (fun _ => false) N st).2.attempts = st.attempts + N := by
  rw [fetch, fetchGo_allServerError status text hs N 1 st]
  exact ⟨rfl, rfl⟩

theorem fetch_serverError_exhausts_budget_witness :
    1 ≤ 2 ∧
    ((fetch (fun _ => 503) (fun _ => "") (fun _ => false) 2 FetchState.init).1 = none ∧
     (fetch (fun _ => 503) (fun _ => "") (fun _ => false) 2 FetchState.init).2.attempts =
       FetchState.init.attempts + 2) :=
  ⟨by decide,
   fetch_serverError_exhausts_budget 2 (by decide) (fun _ => 503) (fun _ => "")
     FetchState.init (fun _ => (by decide : (500 : Nat) ≤ 503))⟩

/-! ## C1 -/

/-- The status sequence of the C1 scenario: 429 on attempts 1 and 2, then
success. -/
def statusC1 : Nat → Nat := fun a => if a ≤ 2 then 429 else 200

/-- C1 (counterexample): in the claimed scenario — a retry budget of 3,
429 on attempts 1 and 2, a success status on attempt 3 — the cookie
re-mint operation is invoked zero times, not exactly once: on both failing
attempts the attempt count is below 3, so the conditional re-mint never
fires. -/
theorem fetch_429twice_remint_counterexample :
    statusC1 1 = 429 ∧ statusC1 2 = 429 ∧ goodStatus (statusC1 3) = true ∧
    ¬((fetch statusC1 (fun _ => "") (fun _ => false) 3
        FetchState.init).2.refresh_cookies_calls = 1) :=
  ⟨rfl, rfl, rfl, by decide⟩

/-- C1 (amended): with a retry budget of at least 3, a 429 on attempts 1
and 2 and a success status on attempt 3, the cookie re-mint operation is
invoked exactly zero times during the call, the success counter gains 1,
the failure counter gains 2, and the body of attempt 3 is returned. -/
theorem fetch_429twice_then_success (retries : Nat) (h3 : 3 ≤ retries)
    (status : Nat → Nat) (text : Nat → String) (st : FetchState)
    (h1 : status 1 = 429) (h2 : status 2 = 429) (hg : goodStatus (status 3) = true) :
    (fetch status text (fun _ => false) retries st).2.refresh_cookies_calls =
      st.refresh_cookies_calls ∧
    (fetch status text (fun _ => false) retries st).2.good_request_count =
      st.good_request_count + 1 ∧
    (fetch status text (fun _ => false) retries st).2.bad_request_count =
      st.bad_request_count + 2 ∧
    (fetch status text (fun _ => false) retries st).1 = some (text 3) := by
  obtain ⟨k, hk⟩ := Nat.exists_eq_add_of_le h3
  obtain ⟨hle, h429, h403, h302⟩ := goodStatus_spec hg
  rw [Nat.add_comm] at hk
  subst hk
  rw [fetch, show k + 3 = (k + 2) + 1 from rfl, fetchGo_succ]
  simp only [if_neg (Bool.false_ne_true), h1]
  norm_num
  rw [show k + 2 = (k + 1) + 1 from rfl, fetchGo_succ]
  simp only [if_neg (Bool.false_ne_true), h2]
  norm_num
  rw [show k + 1 = k + 1 from rfl, fetchGo_succ]
  simp only [if_neg (Bool.false_ne_true), if_neg hle, h429, h403, h302]
  simp

theorem fetch_429twice_then_success_witness :
    3 ≤ 4 ∧
    ((fetch statusC1 (fun _ => "ok") (fun _ => false) 4
        FetchState.init).2.refresh_cookies_calls = FetchState.init.refresh_cookies_calls ∧
     (fetch statusC1 (fun _ => "ok") (fun _ => false) 4
        FetchState.init).2.good_request_count = FetchState.init.good_request_count + 1 ∧
     (fetch statusC1 (fun _ => "ok") (fun _ => false) 4
        FetchState.init).2.bad_request_count = FetchState.init.bad_request_count + 2 ∧
     (fetch statusC1 (fun _ => "ok") (fun _ => false) 4
        FetchState.init).1 = some ((fun _ => "ok") 3)) :=
  ⟨by decide,
   fetch_429twice_then_success 4 (by decide) statusC1 (fun _ => "ok")
     FetchState.init rfl rfl rfl⟩

/-! ## C4 -/

/-- C4 (counterexample): a 404 response — not a 2xx status — still causes
the body to be returned and the success counter to be incremented, because
the code returns on every status below 500 other than 429, 403 and 302. -/
theorem fetch_2xx_claim_counterexample :
    (fetch (fun _ => 404) (fun _ => "body") (fun _ => false) 1
      FetchState.init).1 = some "body" ∧
    (fetch (fun _ => 404) (fun _ => "body") (fun _ => false) 1
      FetchState.init).2.good_request_count = 1 ∧
    is2xx 404 = false :=
  ⟨rfl, rfl, rfl⟩

/-- C4 (amended): on an attempt within fetch, the client persists the
session's cookies, increments the success counter and returns the response
body exactly when the status is below 500 and none of 429, 403, 302; on
any other status that attempt returns no body and leaves the success
counter and the cookie-persist count unchanged, moving on to the next
attempt. -/
theorem fetch_attempt_return_characterization
    (status : Nat → Nat) (text : Nat → String) (stop : Nat → Bool)
    (fuel attempt : Nat) (st : FetchState) (hstop : stop attempt = false) :
    (goodStatus (status attempt) = true →
      fetchGo status text stop (fuel + 1) attempt st =
        (some (text attempt),
         { st with attempts := st.attempts + 1,
                   save_cookies_calls := st.save_cookies_calls + 1,
                   good_request_count := st.good_request_count + 1 })) ∧
    (goodStatus (status attempt) = false →
      ∃ st2, fetchGo status text stop (fuel + 1) attempt st =
          fetchGo status text stop fuel (attempt + 1) st2 ∧
        st2.good_request_count = st.good_request_count ∧
        st2.save_cookies_calls = st.save_cookies_calls) := by
  constructor
  · intro hg
    obtain ⟨hle, h429, h403, h302⟩ := goodStatus_spec hg
    rw [fetchGo_succ]
    simp only [hstop, if_neg (Bool.false_ne_true), if_neg hle, h429, h403, h302]
    simp
  · intro hb
    rw [fetchGo_succ]
    simp only [hstop, if_neg (Bool.false_ne_true)]
    split_ifs with hle h429 h3 h43
    · exact ⟨_, rfl, rfl, rfl⟩
    · exact ⟨_, rfl, rfl, rfl⟩
    · exact ⟨_, rfl, rfl, rfl⟩
    · exact ⟨_, rfl, rfl, rfl⟩
    · exfalso
      simp [goodStatus, hle] at hb
      by_cases e1 : status attempt = 429
      · exact h429 (by simp [e1])
      · by_cases e2 : status attempt = 403
        · exact h43 (by simp [e2])
        · exact h43 (by simp [hb e1 e2])

theorem fetch_attempt_return_characterization_witness :
    ((fun _ => false) 1 = false) ∧
    (goodStatus ((fun _ => 200) 1) = true →
      fetchGo (fun _ => 200) (fun _ => "ok") (fun _ => false) 1 1 FetchState.init =
        (some ((fun _ => "ok") 1),
         { FetchState.init with
             attempts := FetchState.init.attempts + 1,
             save_cookies_calls := FetchState.init.save_cookies_calls + 1,
             good_request_count := FetchState.init.good_request_count + 1 })) :=
  ⟨rfl,
   (fetch_attempt_return_characterization (fun _ => 200) (fun _ => "ok")
     (fun _ => false) 0 1 FetchState.init rfl).1⟩

/-! ## C3 and C7: the pagination loop -/

/-- Unfolding of one budgeted iteration of the pagination loop. -/
lemma processUrlGo_succ {U : Type} (next : U → U) (oracle : Nat → PageOutcome)
    (stop : Nat → Bool) (fuel iter : Nat) (url : U) (fetches : Nat) :
    processUrlGo next oracle stop (fuel + 1) iter url fetches =
      if stop iter then (fetches, url)
      else
        match oracle iter with
        | .fail => processUrlGo next oracle stop fuel (iter + 1) url (fetches + 1)
        | .ok [] => (fetches + 1, url)
        | .ok (_ :: _) =>
          processUrlGo next oracle stop fuel (iter + 1) (next url) (fetches + 1) := rfl

/-- Under a fetch that always comes back absent and no cancellation, the
loop consumes its whole iteration budget, fetching once per iteration and
never moving the URL. -/
lemma processUrlGo_allFail {U : Type} (next : U → U) (oracle : Nat → PageOutcome)
    (stop : Nat → Bool) (hf : ∀ i, oracle i = .fail) (hs : ∀ i, stop i = false)
    (fuel : Nat) :
    ∀ (iter : Nat) (url : U) (fetches : Nat),
      processUrlGo next oracle stop fuel iter url fetches = (fetches + fuel, url) := by
  induction fuel with
  | zero => intro iter url f; simp [processUrlGo]
  | succ fuel ih =>
    intro iter url f
    rw [processUrlGo_succ]
    simp only [hs iter, Bool.false_eq_true, if_false, hf iter]
    rw [ih (iter + 1) url (f + 1)]
    rw [Prod.mk.injEq]
    exact ⟨by omega, rfl⟩

/-- The number of fetches the loop issues is bounded by its iteration
budget. -/
lemma processUrlGo_fetches_le {U : Type} (next : U → U) (oracle : Nat → PageOutcome)
    (stop : Nat → Bool) (fuel : Nat) :
    ∀ (iter : Nat) (url : U) (fetches : Nat),
      (processUrlGo next oracle stop fuel iter url fetches).1 ≤ fetches + fuel := by
  induction fuel with
  | zero => intro iter url f; simp [processUrlGo]
  | succ fuel ih =>
    intro iter url f
    rw [processUrlGo_succ]
    by_cases hst : stop iter
    · simp [hst]
    · cases h : oracle iter with
      | fail =>
        simp only [hst, Bool.false_eq_true, if_false, h]
        have := ih (iter + 1) url (f + 1)
        omega
      | ok ads =>
        cases ads with
        | nil =>
          simp only [hst, Bool.false_eq_true, if_false, h]
          omega
        | cons a as =>
          simp only [hst, Bool.false_eq_true, if_false, h]
          have := ih (iter + 1) (next url) (f + 1)
          omega

/-- C3: in the per-URL pagination loop, an absent page fetch moves the
driver to the next iteration with the current URL unchanged while the
page-iteration counter advances; under repeated failures the whole
per-URL page budget is consumed with one fetch per iteration and the URL
never moves, and in every run the total number of fetches for the URL is
bounded by the configured page budget. -/
theorem processUrl_absent_fetch_behaviour {U : Type} (next : U → U)
    (oracle : Nat → PageOutcome) (stop : Nat → Bool) :
    (∀ (fuel iter : Nat) (url : U) (fetches : Nat),
      stop iter = false → oracle iter = .fail →
      processUrlGo next oracle stop (fuel + 1) iter url fetches =
        processUrlGo next oracle stop fuel (iter + 1) url (fetches + 1)) ∧
    ((∀ i, oracle i = .fail) → (∀ i, stop i = false) →
      ∀ (count : Nat) (url : U),
        processUrl next oracle stop count url = (count, url)) ∧
    (∀ (count : Nat) (url : U), (processUrl next oracle stop count url).1 ≤ count) := by
  refine ⟨?_, ?_, ?_⟩
  · intro fuel iter url fetches hstop hfail
    rw [processUrlGo_succ]
    simp [hstop, hfail]
  · intro hf hs count url
    rw [processUrl, processUrlGo_allFail next oracle stop hf hs count 0 url 0]
    simp
  · intro count url
    have := processUrlGo_fetches_le next oracle stop count 0 url 0
    rw [processUrl]
    omega

theorem processUrl_absent_fetch_behaviour_witness :
    processUrl (U := Nat) Nat.succ (fun _ => PageOutcome.fail) (fun _ => false) 4 7 =
      (4, 7) :=
  (processUrl_absent_fetch_behaviour Nat.succ (fun _ => PageOutcome.fail)
    (fun _ => false)).2.1 (fun _ => rfl) (fun _ => rfl) 4 7

/-- The loop stops at the first iteration whose fetched page extracts to
zero records: counting from the current iteration, if the next k
iterations fetch non-empty pages and iteration k fetches an empty one
(within the budget, without cancellation), exactly k + 1 more fetches are
issued. -/
lemma processUrlGo_empty_page_stops {U : Type} (next : U → U)
    (oracle : Nat → PageOutcome) (stop : Nat → Bool) (hs : ∀ i, stop i = false) :
    ∀ (k fuel iter : Nat) (url : U) (fetches : Nat),
      k < fuel →
      (∀ j, j < k → ∃ a as, oracle (iter + j) = .ok (a :: as)) →
      oracle (iter + k) = .ok [] →
      (processUrlGo next oracle stop fuel iter url fetches).1 = fetches + k + 1 := by
  intro k
  induction k with
  | zero =>
    intro fuel iter url fetches hk hprev hempty
    obtain ⟨m, rfl⟩ : ∃ m, fuel = m + 1 := ⟨fuel - 1, by omega⟩
    rw [processUrlGo_succ]
    simp only [hs iter, Bool.false_eq_true, if_false]
    rw [show iter + 0 = iter from rfl] at hempty
    rw [hempty]
  | succ k ih =>
    intro fuel iter url fetches hk hprev hempty
    obtain ⟨m, rfl⟩ : ∃ m, fuel = m + 1 := ⟨fuel - 1, by omega⟩
    rw [processUrlGo_succ]
    simp only [hs iter, Bool.false_eq_true, if_false]
    obtain ⟨a, as, h0⟩ := hprev 0 (Nat.succ_pos k)
    rw [show iter + 0 = iter from rfl] at h0
    simp only [h0]
    have hres := ih m (iter + 1) (next url) (fetches + 1) (by omega)
      (fun j hj => by
        have := hprev (j + 1) (by omega)
        rwa [show iter + (j + 1) = iter + 1 + j by omega] at this)
      (by rwa [show iter + 1 + k = iter + (k + 1) by omega])
    omega

/-- C7: the per-URL pagination loop terminates the first time a
successfully fetched page yields zero extracted records — after k
non-empty pages and an empty page at iteration k (with k + 1 below the
page budget and no cancellation), exactly k + 1 pages are fetched, even
though the budget allowed more. -/
theorem processUrl_stops_on_empty_page {U : Type} (next : U → U)
    (oracle : Nat → PageOutcome) (stop : Nat → Bool) (count k : Nat) (url : U)
    (hs : ∀ i, stop i = false) (hk : k < count)
    (hprev : ∀ j, j < k → ∃ a as, oracle j = .ok (a :: as))
    (hempty : oracle k = .ok []) :
    (processUrl next oracle stop count url).1 = k + 1 := by
  rw [processUrl]
  have := processUrlGo_empty_page_stops next oracle stop hs k count 0 url 0 hk
    (fun j hj => by simpa using hprev j hj) (by simpa using hempty)
  omega

/-! ## Fixtures for the concrete witnesses -/

/-- A record fixture with no price detail. -/
def adNoPrice : Item := ⟨some 1, some "car", none, none, none, none, false, false, none, none⟩

/-- A record fixture priced at 50. -/
def adPriced : Item := ⟨some 2, some "car", none, some ⟨50⟩, none, none, false, false, none, none⟩

/-- A record fixture whose metadata carries a promoted vas entry. -/
def adPromo : Item :=
  ⟨some 3, none, none, none, none, none, false, false, none,
   some [("DateInfoStep",
     Json.arr [Json.obj [("payload",
       Json.obj [("vas", Json.arr [Json.obj [("title", Json.str "Продвинуто")]])])]])]⟩

/-- A configuration fixture: price bounds 0..100, every optional rule off. -/
def cfg0 : AvitoConfig := ⟨0, 100, [], [], "", [], 0, false, false⟩

/-- A context whose dedup callback marks every record as already seen. -/
def ctxSeen : FilterContext := ⟨cfg0, fun _ => .ok true, 0⟩

/-- A context whose dedup callback never marks a record as seen. -/
def ctxFresh : FilterContext := ⟨cfg0, fun _ => .ok false, 0⟩

/-- A context whose dedup callback raises. -/
def ctxRaise : FilterContext := ⟨cfg0, fun _ => .error (), 0⟩

/-! ## C6 -/

/-- C6: the filter chain is the fixed nine-filter order of the spec, and
the loop applies the filters strictly in that order with an early stop:
the first time a filter's output is empty the chain's result is that
empty batch whatever filters follow, and a non-empty output is handed on
to the rest of the chain. -/
theorem apply_filters_order_early_stop :
    FILTERS_ORDER = [filter_viewed, filter_by_price_range, filter_by_black_keywords,
      filter_by_white_keywords, filter_by_address, filter_by_seller,
      filter_by_recent_time, filter_by_reserve, filter_by_promotion] ∧
    (∀ (ctx : FilterContext) (ads : List Item),
      apply_filters ads ctx = applyFiltersGo ctx FILTERS_ORDER ads) ∧
    (∀ (ctx : FilterContext) (f : AdFilter) (fs : List AdFilter) (ads : List Item),
      f ads ctx = [] → applyFiltersGo ctx (f :: fs) ads = []) ∧
    (∀ (ctx : FilterContext) (f : AdFilter) (fs : List AdFilter) (ads : List Item),
      f ads ctx ≠ [] →
      applyFiltersGo ctx (f :: fs) ads = applyFiltersGo ctx fs (f ads ctx)) := by
  refine ⟨rfl, fun _ _ => rfl, ?_, ?_⟩
  · intro ctx f fs ads h
    simp [applyFiltersGo, h]
  · intro ctx f fs ads h
    simp [applyFiltersGo, h]

theorem apply_filters_order_early_stop_witness :
    applyFiltersGo ctxSeen (filter_viewed :: [filter_by_price_range]) [adPriced] = [] :=
  apply_filters_order_early_stop.2.2.1 ctxSeen filter_viewed [filter_by_price_range]
    [adPriced] rfl

/-! ## C8 -/

/-- C8: the shared try/except shape of every filter in the chain fails
open — whenever evaluating the predicate over the batch raises, the
filter returns its input batch unchanged (same records, same order). In
particular a raising dedup callback leaves the batch of `filter_viewed`
untouched, and `filter_by_price_range` is that same shape instantiated
with the price predicate. -/
theorem filters_fail_open :
    (∀ (p : Item → Except Unit Bool) (ads : List Item) (e : Unit),
      exFilter p ads = .error e → tryFilter p ads = ads) ∧
    (∀ (ctx : FilterContext) (ads : List Item) (e : Unit),
      exFilter (fun ad => do
        let seen ← ctx.is_viewed ad
        Except.ok (!seen)) ads = .error e →
      filter_viewed ads ctx = ads) ∧
    (∀ (ctx : FilterContext) (ads : List Item),
      filter_by_price_range ads ctx = tryFilter (fun ad => .ok (pricePred ctx ad)) ads) := by
  have base : ∀ (p : Item → Except Unit Bool) (ads : List Item) (e : Unit),
      exFilter p ads = .error e → tryFilter p ads = ads := by
    intro p ads e h
    rw [tryFilter, h]
  exact ⟨base, fun ctx ads e h => base _ ads e h, fun _ _ => rfl⟩

theorem filters_fail_open_witness :
    filter_viewed [adPriced] ctxRaise = [adPriced] :=
  filters_fail_open.2.1 ctxRaise [adPriced] () rfl

/-! ## C10 -/

/-- A pure predicate never raises, so the try/except shape is the straight
filtering of the batch. -/
lemma exFilter_pure (q : Item → Bool) (ads : List Item) :
    exFilter (fun ad => .ok (q ad)) ads = .ok (ads.filter q) := by
  induction ads with
  | nil => rfl
  | cons a as ih =>
    cases h : q a with
    | true => simp [exFilter, ih, h, List.filter_cons, except_ok_bind]
    | false => simp [exFilter, ih, h, List.filter_cons, except_ok_bind]

/-- The price predicate holds exactly of a present price detail within the
bounds. -/
lemma pricePred_iff (ctx : FilterContext) (ad : Item) :
    pricePred ctx ad = true ↔
      ∃ p, ad.priceDetailed = some p ∧
        ctx.config.min_price ≤ p.value ∧ p.value ≤ ctx.config.max_price := by
  cases h : ad.priceDetailed with
  | none => simp [pricePred, h]
  | some p => simp [pricePred, h]

/-- C10: the price-range filter is the straight filtering of the batch by
the price predicate; a record survives it iff its price detail is present
and its value lies within the configured bounds — so a record whose price
detail is absent is removed whatever the bounds are. -/
theorem filter_by_price_range_characterization :
    (∀ (ctx : FilterContext) (ads : List Item),
      filter_by_price_range ads ctx = ads.filter (fun ad => pricePred ctx ad)) ∧
    (∀ (ctx : FilterContext) (ads : List Item) (ad : Item),
      ad ∈ filter_by_price_range ads ctx ↔
        ad ∈ ads ∧ ∃ p, ad.priceDetailed = some p ∧
          ctx.config.min_price ≤ p.value ∧ p.value ≤ ctx.config.max_price) ∧
    (∀ (ctx : FilterContext) (ads : List Item) (ad : Item),
      ad.priceDetailed = none → ad ∉ filter_by_price_range ads ctx) := by
  have hfil : ∀ (ctx : FilterContext) (ads : List Item),
      filter_by_price_range ads ctx = ads.filter (fun ad => pricePred ctx ad) := by
    intro ctx ads
    rw [filter_by_price_range, tryFilter, exFilter_pure]
  have hmem : ∀ (ctx : FilterContext) (ads : List Item) (ad : Item),
      ad ∈ filter_by_price_range ads ctx ↔
        ad ∈ ads ∧ ∃ p, ad.priceDetailed = some p ∧
          ctx.config.min_price ≤ p.value ∧ p.value ≤ ctx.config.max_price := by
    intro ctx ads ad
    rw [hfil, List.mem_filter, pricePred_iff]
  refine ⟨hfil, hmem, ?_⟩
  intro ctx ads ad hnone hin
  obtain ⟨p, hp, _⟩ := ((hmem ctx ads ad).mp hin).2
  rw [hnone] at hp
  cases hp

theorem filter_by_price_range_characterization_witness :
    adNoPrice.priceDetailed = none ∧
    adNoPrice ∉ filter_by_price_range [adNoPrice] ctxFresh :=
  ⟨rfl, filter_by_price_range_characterization.2.2 ctxFresh [adNoPrice] adNoPrice rfl⟩

/-! ## C9 -/

/-- The short-circuiting vas scan, when it succeeds, agrees with the spec's
total scan of the entries. -/
lemma vasHasPromo_spec (vs : List Json) :
    ∀ (b : Bool), vasHasPromo vs = .ok b → vs.any specVasEntryPromo = b := by
  induction vs with
  | nil =>
    intro b h
    injection h
  | cons v vs ih =>
    intro b h
    cases v with
    | obj vfs =>
      simp only [vasHasPromo] at h
      by_cases ht : ((jlookup vfs "title").map (fun t => t.isStr "Продвинуто")).getD false
      · rw [if_pos ht] at h
        injection h with h1
        simp [specVasEntryPromo, ht, ← h1]
      · rw [if_neg ht] at h
        have hb := ih b h
        rw [Bool.not_eq_true] at ht
        simp [specVasEntryPromo, ht, hb]
    | null => simp [vasHasPromo] at h
    | bool bb => simp [vasHasPromo] at h
    | num n => simp [vasHasPromo] at h
    | str s => simp [vasHasPromo] at h
    | arr l => simp [vasHasPromo] at h

/-- The vas extraction of a step, when it succeeds, makes the spec's step
predicate the total scan of the extracted entries. -/
lemma vasOfStep_spec (step : Json) (vs : List Json) (h : vasOfStep step = .ok vs) :
    specStepPromo step = vs.any specVasEntryPromo := by
  cases step with
  | null => simp [vasOfStep] at h
  | bool bb => simp [vasOfStep] at h
  | num n => simp [vasOfStep] at h
  | str s => simp [vasOfStep] at h
  | arr l => simp [vasOfStep] at h
  | obj sfs =>
    simp only [vasOfStep] at h
    cases hp : jlookup sfs "payload" with
    | none => rw [hp] at h; cases h
    | some payload =>
      rw [hp] at h
      cases payload with
      | null =>
        simp only [Json.falsy, if_true] at h
        injection h with h1
        simp [specStepPromo, hp, ← h1]
      | bool bb =>
        cases bb with
        | false =>
          simp only [Json.falsy, Bool.not_false, if_true] at h
          injection h with h1
          simp [specStepPromo, hp, ← h1]
        | true => simp [Json.falsy] at h
      | num n =>
        by_cases hn : n = 0
        · subst hn
          simp only [Json.falsy] at h
          norm_num at h
          simp [specStepPromo, hp, h]
        · simp [Json.falsy, hn] at h
      | str s =>
        by_cases hs : s.isEmpty
        · simp only [Json.falsy, hs, if_true] at h
          injection h with h1
          simp [specStepPromo, hp, ← h1]
        · simp [Json.falsy, hs] at h
      | arr l =>
        cases l with
        | nil =>
          simp only [Json.falsy, List.isEmpty_nil, if_true] at h
          injection h with h1
          simp [specStepPromo, hp, ← h1]
        | cons x xs => simp [Json.falsy] at h
      | obj pfs =>
        by_cases hf : pfs.isEmpty
        · simp only [Json.falsy, hf, if_true] at h
          injection h with h1
          rw [List.isEmpty_iff] at hf
          simp [specStepPromo, hp, hf, jlookup, ← h1]
        · simp only [Json.falsy, hf, Bool.false_eq_true, if_false] at h
          cases hv : jlookup pfs "vas" with
          | none =>
            rw [hv] at h
            injection h with h1
            simp [specStepPromo, hp, hv, ← h1]
          | some vval =>
            rw [hv] at h
            cases vval with
            | null => cases h
            | bool b2 => cases h
            | num n2 => cases h
            | arr l2 =>
              injection h with h1
              simp [specStepPromo, hp, hv, h1]
            | str s2 =>
              by_cases hs2 : s2.isEmpty
              · simp only [hs2, if_true] at h
                injection h with h1
                simp [specStepPromo, hp, hv, ← h1]
              · simp [hs2] at h
            | obj f2 =>
              by_cases hf2 : f2.isEmpty
              · simp only [hf2, if_true] at h
                injection h with h1
                simp [specStepPromo, hp, hv, ← h1]
              · simp [hf2] at h

/-- The short-circuiting step scan, when it succeeds, agrees with the
spec's total scan of the steps. -/
lemma stepsHasPromo_spec (steps : List Json) :
    ∀ (b : Bool), stepsHasPromo steps = .ok b → steps.any specStepPromo = b := by
  induction steps with
  | nil =>
    intro b h
    injection h
  | cons step rest ih =>
    intro b h
    simp only [stepsHasPromo] at h
    obtain ⟨vs, hvs, h2⟩ := except_bind_ok h
    obtain ⟨b1, hb1, h3⟩ := except_bind_ok h2
    rw [List.any_cons, vasOfStep_spec step vs hvs, vasHasPromo_spec vs b1 hb1]
    cases b1 with
    | true =>
      simp only [if_true] at h3
      injection h3
    | false =>
      simp only [Bool.false_eq_true, if_false] at h3
      simp [ih b h3]

/-- The per-record promotion computation, when it succeeds, agrees with
the spec's predicate. -/
lemma promoFlagOfAd_spec (ad : Item) (b : Bool) (h : promoFlagOfAd ad = .ok b) :
    specHasPromo ad = b := by
  simp only [promoFlagOfAd] at h
  simp only [specHasPromo]
  cases hd : jlookup (ad.iva.getD []) "DateInfoStep" with
  | none =>
    rw [hd] at h
    injection h
  | some v =>
    rw [hd] at h
    cases v with
    | arr steps => exact stepsHasPromo_spec steps b h
    | null => cases h
    | bool b2 => cases h
    | num n2 => cases h
    | str s =>
      by_cases hs : s.isEmpty
      · simp only [hs, if_true] at h
        injection h
      · simp [hs] at h
    | obj fs =>
      by_cases hf : fs.isEmpty
      · simp only [hf, if_true] at h
        injection h
      · simp [hf] at h

/-- C9: the promotion filter always computes and attaches the derived
promotion flag, even when the exclusion itself is disabled; the flag
attached by a successful metadata scan is true exactly when the metadata
contains a vas entry whose title is exactly "Продвинуто"; a malformed
metadata block (a raising scan) leaves the record exactly as it was —
and records enter the pipeline not-promoted, the schema decoder setting
the flag false — with no exception escaping, the flagging pass being a
total map over the batch. -/
theorem filter_by_promotion_flag_semantics :
    (∀ (ctx : FilterContext) (ads : List Item), ctx.config.ignore_promotion = false →
      filter_by_promotion ads ctx = _add_promotion_flag ads) ∧
    (∀ ads, _add_promotion_flag ads = ads.map applyPromoFlag) ∧
    (∀ (ad : Item) (b : Bool), promoFlagOfAd ad = .ok b →
      (applyPromoFlag ad).isPromotion = b ∧ b = specHasPromo ad) ∧
    (∀ (ad : Item) (e : Unit), promoFlagOfAd ad = .error e → applyPromoFlag ad = ad) ∧
    (∀ (j : Json) (it : Item), decodeItem j = .ok it → it.isPromotion = false) := by
  refine ⟨?_, fun _ => rfl, ?_, ?_, ?_⟩
  · intro ctx ads hip
    simp [filter_by_promotion, hip]
  · intro ad b h
    constructor
    · simp [applyPromoFlag, h]
    · exact (promoFlagOfAd_spec ad b h).symm
  · intro ad e h
    simp [applyPromoFlag, h]
  · intro j it h
    cases j with
    | null => cases h
    | bool b2 => cases h
    | num n2 => cases h
    | str s => cases h
    | arr l => cases h
    | obj fs =>
      simp only [decodeItem] at h
      obtain ⟨a1, _, h⟩ := except_bind_ok h
      obtain ⟨a2, _, h⟩ := except_bind_ok h
      obtain ⟨a3, _, h⟩ := except_bind_ok h
      obtain ⟨a4, _, h⟩ := except_bind_ok h
      obtain ⟨a5, _, h⟩ := except_bind_ok h
      obtain ⟨a6, _, h⟩ := except_bind_ok h
      obtain ⟨a7, _, h⟩ := except_bind_ok h
      obtain ⟨a8, _, h⟩ := except_bind_ok h
      injection h with h1
      rw [← h1]

theorem filter_by_promotion_flag_semantics_witness :
    (applyPromoFlag adPromo).isPromotion = true ∧ true = specHasPromo adPromo :=
  filter_by_promotion_flag_semantics.2.2.1 adPromo true (by rfl)

/-! ## C5 -/

/-- When no mime/invalid script parses to a blob in which the `in` check
finds a top-level "state" or "data" key, the page scan yields the empty
dict (whether the blobs fail to parse, raise on the membership check, or
simply lack the keys). -/
lemma find_json_on_page_nothing (scripts : List Script)
    (h : ∀ s ∈ scripts, s.stype = some "mime/invalid" →
      ∀ j, s.parsed = .ok j →
        j.pyContains "state" ≠ .ok true ∧ j.pyContains "data" ≠ .ok true) :
    find_json_on_page scripts = Json.obj [] := by
  induction scripts with
  | nil => rfl
  | cons s rest ih =>
    rw [find_json_on_page]
    by_cases hst : s.stype == some "mime/invalid"
    · rw [if_pos hst]
      cases hp : s.parsed with
      | error e => rfl
      | ok j =>
        have hj := h s (List.mem_cons_self s rest) (by simpa using hst) j hp
        cases hcs : j.pyContains "state" with
        | error e => simp only [hcs]
        | ok bs =>
          cases bs with
          | true => exact absurd hcs hj.1
          | false =>
            cases hcd : j.pyContains "data" with
            | error e => simp only [hcs, hcd]
            | ok bd =>
              cases bd with
              | true => exact absurd hcd hj.2
              | false =>
                simp only [hcs, hcd]
                exact ih fun s2 hs2 => h s2 (List.mem_cons_of_mem s hs2)
    · rw [if_neg hst]
      exact ih fun s2 hs2 => h s2 (List.mem_cons_of_mem s hs2)

/-- C5: `extract_ads_from_html` returns the empty list, with no exception
escaping, both when no suitably tagged script parses to a JSON blob with a
top-level "state" or "data" key (the blob is considered not found) and
when the located working object's catalog section fails validation against
the record schema. -/
theorem extract_ads_empty_on_failure :
    (∀ (extractSlug : Item → Option String) (scripts : List Script),
      (∀ s ∈ scripts, s.stype = some "mime/invalid" →
        ∀ j, s.parsed = .ok j →
          j.pyContains "state" ≠ .ok true ∧ j.pyContains "data" ≠ .ok true) →
      extract_ads_from_html extractSlug scripts = .ok []) ∧
    (∀ (extractSlug : Item → Option String) (d : Json) (cfs : List (String × Json)),
      d.falsy = false → catalogOf d = .ok (.obj cfs) →
      decodeItemsResponse cfs = .error () →
      extractFromData extractSlug d = .ok []) := by
  constructor
  · intro extractSlug scripts h
    rw [extract_ads_from_html, find_json_on_page_nothing scripts h]
    rfl
  · intro extractSlug d cfs hfal hcat hdec
    rw [extractFromData, hfal]
    simp only [Bool.false_eq_true, if_false, hcat, hdec]

/-- A page fixture: one mime/invalid script whose blob has neither a
"state" nor a "data" key. -/
def scriptNoKeys : Script := ⟨some "mime/invalid", .ok (Json.obj [("foo", Json.null)])⟩

/-- A working-object fixture whose catalog section has a non-array items
field, failing schema validation. -/
def dBadCatalog : Json :=
  Json.obj [("data", Json.obj [("catalog", Json.obj [("items", Json.num 5)])])]

theorem extract_ads_empty_on_failure_witness :
    extract_ads_from_html (fun _ => none) [scriptNoKeys] = .ok [] ∧
    extractFromData (fun _ => none) dBadCatalog = .ok [] :=
  ⟨extract_ads_empty_on_failure.1 (fun _ => none) [scriptNoKeys]
    (by
      intro s hs hty j hj
      rw [List.mem_singleton] at hs
      subst hs
      rw [show scriptNoKeys.parsed = .ok (Json.obj [("foo", Json.null)]) from rfl] at hj
      injection hj with hj1
      subst hj1
      constructor
      · intro hcon
        rw [show (Json.obj [("foo", Json.null)]).pyContains "state" = .ok false from rfl] at hcon
        injection hcon with hc
        cases hc
      · intro hcon
        rw [show (Json.obj [("foo", Json.null)]).pyContains "data" = .ok false from rfl] at hcon
        injection hcon with hc
        cases hc),
   extract_ads_empty_on_failure.2 (fun _ => none) dBadCatalog
     [("items", Json.num 5)] rfl rfl rfl⟩

/-- A non-empty page fixture used by the pagination witness. -/
def pageOracleW : Nat → PageOutcome :=
  fun i => if i = 0 then .ok [adPriced] else .ok []

theorem processUrl_stops_on_empty_page_witness :
    (processUrl (U := Nat) Nat.succ pageOracleW (fun _ => false) 5 0).1 = 1 + 1 :=
  processUrl_stops_on_empty_page Nat.succ pageOracleW (fun _ => false) 5 1 0
    (fun _ => rfl) (by decide)
    (fun j hj => by
      have hj0 : j = 0 := by omega
      subst hj0
      exact ⟨adPriced, [], rfl⟩)
    rfl

end Avito
